import Mathlib

/-!
Verification of the libusb asynchronous transfer engine and device/handle
lifecycle (src/libusb/io.c and the core device file) against its
natural-language specification.  The C code is shallowly embedded: timevals
and timespecs become pairs of naturals, the intrusive in-flight list becomes
a Lean list, the backend and the OS readiness primitive become oracle
parameters, and each C function becomes a pure Lean function over that state.
-/

namespace LibUSB

/-- struct timeval restricted to the monotonic clock: non-negative seconds
and microseconds.  A value of (0, 0) is the "unset" (infinite) deadline,
exactly as the C code tests with timerisset. -/
structure Timeval where
  sec : Nat
  usec : Nat
deriving DecidableEq

/-- timerisset(tv): the timeval holds a set (non-zero) time. -/
def timerisset (tv : Timeval) : Prop := tv.sec ≠ 0 ∨ tv.usec ≠ 0

instance (tv : Timeval) : Decidable (timerisset tv) := by
  unfold timerisset; exact inferInstance

/-- The field-wise strict comparison the source writes out by hand in
add_to_flying_list and handle_timeouts:
a.sec > b.sec or (a.sec == b.sec and a.usec > b.usec). -/
def timevalGt (a b : Timeval) : Prop :=
  b.sec < a.sec ∨ (a.sec = b.sec ∧ b.usec < a.usec)

instance (a b : Timeval) : Decidable (timevalGt a b) := by
  unfold timevalGt; exact inferInstance

/-- timercmp(a, b, <) as used by poll_io to pick the smaller timeout. -/
def timevalLt (a b : Timeval) : Prop := timevalGt b a

instance (a b : Timeval) : Decidable (timevalLt a b) := by
  unfold timevalLt; exact inferInstance

/-- timersub(a, b): field-wise subtraction with borrow, meaningful when
a is not before b. -/
def timevalSub (a b : Timeval) : Timeval :=
  if b.usec ≤ a.usec then ⟨a.sec - b.sec, a.usec - b.usec⟩
  else ⟨a.sec - b.sec - 1, a.usec + 1000000 - b.usec⟩

/-- enum libusb_transfer_status, plus the internal SILENT_COMPLETION
sentinel. -/
inductive TransferStatus where
  | completed
  | error
  | timedOut
  | cancelled
  | stall
  | noDevice
  | overflow
  | silentCompletion
deriving DecidableEq

/-- The fields of struct libusb_transfer (the public transfer view) that the
engine core reads or writes.  The user callback pointer is modelled by
whether it is non-NULL; buffer contents are outside the engine's state. -/
structure LibusbTransfer where
  endpointTypeControl : Bool
  flagsShortNotOk : Bool
  flagsFreeTransfer : Bool
  length : Int
  actualLength : Int
  status : TransferStatus
  timeoutMs : Nat
  hasCallback : Bool
deriving DecidableEq

/-- struct usbi_transfer: the engine's private view wrapping the public one.
tid models the object's address (its identity in the in-flight list);
syncCancelled and timedOut are the USBI_TRANSFER_SYNC_CANCELLED and
USBI_TRANSFER_TIMED_OUT flag bits. -/
structure UsbiTransfer where
  tid : Nat
  pub : LibusbTransfer
  timeout : Timeval
  transferred : Int
  syncCancelled : Bool
  timedOut : Bool
deriving DecidableEq

/-- LIBUSB_CONTROL_SETUP_SIZE: the 8-byte control setup header. -/
def LIBUSB_CONTROL_SETUP_SIZE : Int := 8

/-- The requested payload length usbi_handle_transfer_completion compares
against: transfer->length, minus the setup header for control transfers. -/
def requestedLength (it : UsbiTransfer) : Int :=
  if it.pub.endpointTypeControl then it.pub.length - LIBUSB_CONTROL_SETUP_SIZE
  else it.pub.length

/-- The outcome of delivering one terminal event: the updated transfer, the
status the user callback observed (none when no callback fired), and whether
the FREE_TRANSFER path freed the transfer. -/
structure CompletionResult where
  itransfer : UsbiTransfer
  callback : Option TransferStatus
  freed : Bool
deriving DecidableEq

/-- usbi_handle_transfer_completion: early return on SILENT_COMPLETION;
rewrite COMPLETED to ERROR when SHORT_NOT_OK is set and the observed byte
count differs from the requested length; publish status and actual_length;
invoke the callback if present; free when FREE_TRANSFER is set. -/
def usbi_handle_transfer_completion (it : UsbiTransfer) (status : TransferStatus) :
    CompletionResult :=
  if status = TransferStatus.silentCompletion then ⟨it, none, false⟩
  else
    let status :=
      if status = TransferStatus.completed ∧ it.pub.flagsShortNotOk = true then
        if requestedLength it ≠ it.transferred then TransferStatus.error else status
      else status
    let it := { it with pub := { it.pub with status := status, actualLength := it.transferred } }
    ⟨it, if it.pub.hasCallback then some status else none, it.pub.flagsFreeTransfer⟩

/-- usbi_handle_transfer_cancellation: a sync-cancelled transfer completes
silently with the flag cleared; a timed-out one completes with TIMED_OUT;
otherwise the cancel was a plain async cancel and completes with CANCELLED. -/
def usbi_handle_transfer_cancellation (it : UsbiTransfer) : CompletionResult :=
  if it.syncCancelled then
    usbi_handle_transfer_completion { it with syncCancelled := false }
      TransferStatus.silentCompletion
  else if it.timedOut then
    usbi_handle_transfer_completion it TransferStatus.timedOut
  else
    usbi_handle_transfer_completion it TransferStatus.cancelled

/-! ## The in-flight scheduler (add_to_flying_list) -/

/-- The walk of add_to_flying_list: insert the transfer before the first
element whose timeout is unset or field-wise strictly greater than the new
transfer's; if the walk exhausts the list, append at the end. -/
def flyingInsertWalk (t : UsbiTransfer) : List UsbiTransfer → List UsbiTransfer
  | [] => [t]
  | cur :: rest =>
    if ¬ timerisset cur.timeout ∨ timevalGt cur.timeout t.timeout then
      t :: cur :: rest
    else
      cur :: flyingInsertWalk t rest

/-- add_to_flying_list: an empty list starts with the transfer; an infinite
timeout appends at the tail; otherwise the sorted walk places it. -/
def add_to_flying_list (t : UsbiTransfer) (flying : List UsbiTransfer) :
    List UsbiTransfer :=
  if flying = [] then [t]
  else if ¬ timerisset t.timeout then flying ++ [t]
  else flyingInsertWalk t flying

/-- The insertion rule exactly as the specification sentence states it for
every new transfer: walk from head; insert before the first element whose
deadline is unset or strictly greater; if no such element, append.  Kept
separate from the source translation add_to_flying_list so the two can be
compared. -/
def specInsert (t : UsbiTransfer) : List UsbiTransfer → List UsbiTransfer
  | [] => [t]
  | cur :: rest =>
    if ¬ timerisset cur.timeout ∨ timevalGt cur.timeout t.timeout then
      t :: cur :: rest
    else
      cur :: specInsert t rest

/-- The scheduler ordering relation: a set deadline precedes every unset one
and set deadlines compare field-wise; an unset deadline may only be followed
by unset deadlines. -/
def schedLe (a b : Timeval) : Prop :=
  (timerisset a ∨ ¬ timerisset b) ∧ (timerisset b → ¬ timevalGt a b)

instance (a b : Timeval) : Decidable (schedLe a b) := by
  unfold schedLe; exact inferInstance

/-- The scheduler invariant: pairwise ordering along the in-flight list
(set deadlines non-decreasing, unset deadlines a contiguous suffix). -/
def schedInv (l : List UsbiTransfer) : Prop :=
  l.Pairwise (fun x y => schedLe x.timeout y.timeout)

instance (l : List UsbiTransfer) : Decidable (schedInv l) := by
  unfold schedInv; exact List.instDecidablePairwise l

/-- One scheduler operation: a submission (which inserts through
add_to_flying_list) or a removal (the O(1) delink of the entry at a
position). -/
inductive SchedOp where
  | submit (t : UsbiTransfer)
  | remove (i : Nat)

/-- Apply one scheduler operation to the in-flight list. -/
def applySchedOp (l : List UsbiTransfer) : SchedOp → List UsbiTransfer
  | SchedOp.submit t => add_to_flying_list t l
  | SchedOp.remove i => l.eraseIdx i

/-- The in-flight list after a sequence of insertions and removals starting
from the empty list. -/
def applySchedOps (ops : List SchedOp) : List UsbiTransfer :=
  ops.foldl applySchedOp []

/-! ## The timeout sweep (handle_timeouts / handle_timeout) -/

/-- handle_timeout: latch the TIMED_OUT flag on the transfer.  The
accompanying asynchronous backend cancel is recorded by the caller. -/
def handle_timeout (it : UsbiTransfer) : UsbiTransfer :=
  { it with timedOut := true }

/-- What one sweep of the in-flight list produces: the updated list (no
entry is delinked) and the transfers for which an asynchronous backend
cancel was issued, in walk order. -/
structure SweepResult where
  flying : List UsbiTransfer
  cancels : List Nat
deriving DecidableEq

/-- The walk of handle_timeouts: stop at the first unset timeout, skip
entries already latched TIMED_OUT, stop at the first unlatched entry whose
timeout is strictly after now, and for each remaining (expired) entry run
handle_timeout and issue the backend cancel. -/
def sweepWalk (now : Timeval) : List UsbiTransfer → SweepResult
  | [] => ⟨[], []⟩
  | t :: rest =>
    if ¬ timerisset t.timeout then ⟨t :: rest, []⟩
    else if t.timedOut then
      let r := sweepWalk now rest
      ⟨t :: r.flying, r.cancels⟩
    else if timevalGt t.timeout now then ⟨t :: rest, []⟩
    else
      let r := sweepWalk now rest
      ⟨handle_timeout t :: r.flying, t.tid :: r.cancels⟩

/-- handle_timeouts: nothing to do on an empty list, else walk it at the
current monotonic time (the clock read is assumed to succeed). -/
def handle_timeouts (now : Timeval) (flying : List UsbiTransfer) : SweepResult :=
  if flying = [] then ⟨[], []⟩ else sweepWalk now flying

/-- An entry the sweep must handle: set deadline, not yet latched, and not
strictly after the current time. -/
def expiredUnlatched (now : Timeval) (t : UsbiTransfer) : Prop :=
  timerisset t.timeout ∧ t.timedOut = false ∧ ¬ timevalGt t.timeout now

instance (now : Timeval) (t : UsbiTransfer) : Decidable (expiredUnlatched now t) := by
  unfold expiredUnlatched; exact inferInstance

/-! ## Synchronous cancellation (libusb_cancel_transfer_sync) -/

/-- What one libusb_poll call does from the point of view of the transfer
being cancelled: whether the backend reported the transfer's cancellation
during this iteration (running usbi_handle_transfer_cancellation), and the
value libusb_poll returns. -/
structure PollEvent where
  deliverCancel : Bool
  ret : Int
deriving DecidableEq

/-- The outcome of libusb_cancel_transfer_sync: its return value, the final
transfer state, and the statuses the user callback observed across all the
event-loop iterations it drove. -/
structure SyncCancelResult where
  ret : Int
  itransfer : UsbiTransfer
  callbacks : List TransferStatus
deriving DecidableEq

/-- The while loop of libusb_cancel_transfer_sync: while the SYNC_CANCELLED
flag is set, run one event-loop iteration (whose behaviour the next script
entry gives) and bail out on a negative return.  none means the script ended
with the flag still set (the C loop would still be spinning). -/
def syncCancelLoop (evs : List PollEvent) (it : UsbiTransfer)
    (log : List TransferStatus) : Option SyncCancelResult :=
  if it.syncCancelled = false then some ⟨0, it, log⟩
  else
    match evs with
    | [] => none
    | ev :: rest =>
      let step :=
        if ev.deliverCancel then
          let c := usbi_handle_transfer_cancellation it
          (c.itransfer, log ++ c.callback.toList)
        else (it, log)
      if ev.ret < 0 then some ⟨ev.ret, step.1, step.2⟩
      else syncCancelLoop rest step.1 step.2

/-- libusb_cancel_transfer_sync: ask the backend to cancel (its return value
is the first argument), fail on a negative backend return, else set the
SYNC_CANCELLED flag and spin the event loop until the flag is cleared. -/
def libusb_cancel_transfer_sync (backendCancelRet : Int) (evs : List PollEvent)
    (it : UsbiTransfer) : Option SyncCancelResult :=
  if backendCancelRet < 0 then some ⟨backendCancelRet, it, []⟩
  else syncCancelLoop evs { it with syncCancelled := true } []

/-! ## The event-loop iteration (poll_io / libusb_get_next_timeout) -/

/-- struct usbi_pollfd: a registered descriptor with its POLLIN / POLLOUT
event mask. -/
structure Pollfd where
  fd : Nat
  pollin : Bool
  pollout : Bool
deriving DecidableEq

/-- libusb_get_next_timeout at the current monotonic time: none models the
0 return (no timeout), some tv models the 1 return with *tv filled in.  The
first transfer not already latched TIMED_OUT decides: an unset timeout means
no deadline; an already-reached deadline yields a cleared timeval; otherwise
the time remaining until the deadline. -/
def libusb_get_next_timeout (now : Timeval) (flying : List UsbiTransfer) :
    Option Timeval :=
  match flying.find? (fun t => ¬ t.timedOut) with
  | none => none
  | some t =>
    if ¬ timerisset t.timeout then none
    else if ¬ timevalGt t.timeout now then some ⟨0, 0⟩
    else some (timevalSub t.timeout now)

/-- The arguments poll_io hands to select: nfds, the descriptors in the read
and write sets, and the timeout. -/
structure SelectCall where
  nfds : Nat
  readfds : List Nat
  writefds : List Nat
  timeout : Timeval
deriving DecidableEq

/-- The environment's behaviour for the one select call an iteration makes:
its return value, whether errno was EINTR on a -1 return, and the value
select leaves in its timeout argument. -/
structure SelectOracle where
  ret : Int
  eintr : Bool
  remaining : Timeval
deriving DecidableEq

/-- Everything one poll_io iteration did: the select call it made (none when
it skipped select), whether the timeout sweep ran, the in-flight list and
cancel requests after the iteration, whether the backend event handler ran,
the caller's timeval on return, and the return value. -/
structure PollIOResult where
  selectCall : Option SelectCall
  sweepRan : Bool
  flying : List UsbiTransfer
  cancels : List Nat
  backendHandledEvents : Bool
  tvOut : Timeval
  ret : Int
deriving DecidableEq

/-- poll_io: consult libusb_get_next_timeout; if the next deadline already
expired, run the timeout sweep and return without calling select; otherwise
select with the smaller of the next-deadline delta and the caller's timeout;
on a 0 (timeout) return write back the remaining time, sweep and return; on
EINTR return 0; on another negative return propagate it; otherwise hand the
ready sets to the backend and then sweep. -/
def poll_io (now : Timeval) (flying : List UsbiTransfer) (pfds : List Pollfd)
    (tv : Timeval) (sel : SelectOracle) (backendRet : Int) : PollIOResult :=
  let next := libusb_get_next_timeout now flying
  let selectTimeoutChoice :=
    match next with
    | some timeout =>
      if ¬ timerisset timeout then none
      else if timevalLt timeout tv then some timeout
      else some tv
    | none => some tv
  match selectTimeoutChoice with
  | none =>
    let s := handle_timeouts now flying
    ⟨none, true, s.flying, s.cancels, false, tv, 0⟩
  | some select_timeout =>
    let readfds := (pfds.filter (fun p => p.pollin)).map (fun p => p.fd)
    let writefds := (pfds.filter (fun p => p.pollout)).map (fun p => p.fd)
    let maxfd := pfds.foldl (fun m p => if p.fd > m then p.fd else m) 0
    let call : SelectCall := ⟨maxfd + 1, readfds, writefds, select_timeout⟩
    if sel.ret = 0 then
      let s := handle_timeouts now flying
      ⟨some call, true, s.flying, s.cancels, false, sel.remaining, 0⟩
    else if sel.ret = -1 ∧ sel.eintr then
      ⟨some call, false, flying, [], false, tv, 0⟩
    else if sel.ret < 0 then
      ⟨some call, false, flying, [], false, tv, sel.ret⟩
    else if backendRet < 0 then
      ⟨some call, false, flying, [], true, tv, backendRet⟩
    else
      let s := handle_timeouts now flying
      ⟨some call, true, s.flying, s.cancels, true, tv, 0⟩

/-! ## Interface claiming (libusb_claim_interface and friends) -/

/-- Modelled from the spec: the claimed-interface bitmap's width in bits,
sizeof(dev->claimed_interfaces) * 8 in the source.  struct
libusb_device_handle is declared in a header that is not part of the staged
sources; the specification fixes one bit per interface number and width at
least 32, modelled here as exactly 32. -/
def claimedIfaceWidth : Nat := 32

/-- Modelled from the spec: LIBUSB_ERROR_INVALID_PARAM from the error-code
enumeration (SUCCESS=0 and negative codes in the spec's order). -/
def LIBUSB_ERROR_INVALID_PARAM : Int := -2

/-- Modelled from the spec: LIBUSB_ERROR_NOT_FOUND from the error-code
enumeration. -/
def LIBUSB_ERROR_NOT_FOUND : Int := -5

/-- The C conversion of a (64-bit-or-narrower) signed int to size_t that the
comparison interface_number >= sizeof(...)*8 performs: reduction modulo
2^64, so negative values become huge. -/
def intToSizeT (n : Int) : Nat := (n % (2 ^ 64 : Int)).toNat

/-- struct libusb_device_handle restricted to what the interface operations
touch: the claimed-interface bitmap (an unsigned integer of
claimedIfaceWidth bits). -/
structure DeviceHandle where
  claimedInterfaces : Nat
deriving DecidableEq

/-- Result of one interface operation: the return value, the handle
afterwards, and whether the backend was called. -/
structure IfaceResult where
  ret : Int
  handle : DeviceHandle
  backendCalled : Bool
deriving DecidableEq

/-- libusb_claim_interface: reject interface numbers at or beyond the bitmap
width (the int is converted to size_t, so negatives are huge); an
already-set bit returns 0 untouched; otherwise delegate to the backend
(whose return is the first argument) and set the bit on success. -/
def libusb_claim_interface (backendRet : Int) (dev : DeviceHandle) (n : Int) :
    IfaceResult :=
  if claimedIfaceWidth ≤ intToSizeT n then ⟨LIBUSB_ERROR_INVALID_PARAM, dev, false⟩
  else if dev.claimedInterfaces.testBit (intToSizeT n) then ⟨0, dev, false⟩
  else if backendRet = 0 then
    ⟨0, ⟨dev.claimedInterfaces ||| (1 <<< intToSizeT n)⟩, true⟩
  else ⟨backendRet, dev, true⟩

/-- libusb_release_interface: same range check; an unset bit fails
NOT_FOUND; otherwise delegate to the backend and clear the bit (mask with
the complement within the bitmap width) on success. -/
def libusb_release_interface (backendRet : Int) (dev : DeviceHandle) (n : Int) :
    IfaceResult :=
  if claimedIfaceWidth ≤ intToSizeT n then ⟨LIBUSB_ERROR_INVALID_PARAM, dev, false⟩
  else if ¬ dev.claimedInterfaces.testBit (intToSizeT n) then
    ⟨LIBUSB_ERROR_NOT_FOUND, dev, false⟩
  else if backendRet = 0 then
    ⟨0, ⟨dev.claimedInterfaces &&& ((2 ^ claimedIfaceWidth - 1) ^^^ (1 <<< intToSizeT n))⟩, true⟩
  else ⟨backendRet, dev, true⟩

/-- libusb_set_interface_alt_setting: same range check; requires the bit to
be set (else NOT_FOUND); then a pure delegation to the backend that leaves
the bitmap alone. -/
def libusb_set_interface_alt_setting (backendRet : Int) (dev : DeviceHandle)
    (n : Int) (_altSetting : Int) : IfaceResult :=
  if claimedIfaceWidth ≤ intToSizeT n then ⟨LIBUSB_ERROR_INVALID_PARAM, dev, false⟩
  else if ¬ dev.claimedInterfaces.testBit (intToSizeT n) then
    ⟨LIBUSB_ERROR_NOT_FOUND, dev, false⟩
  else ⟨backendRet, dev, true⟩

/-! ## The device registry (usbi_alloc_device / ref / unref) -/

/-- struct libusb_device restricted to what the registry operations touch:
the identity of the allocation (its address), the backend session ID and the
reference count. -/
structure Device where
  devId : Nat
  sessionData : Nat
  refcnt : Int
deriving DecidableEq

/-- The process-wide device registry: the usb_devs list, the trace of
backend destroy-hook invocations, the trace of freed devices, and the next
fresh allocation identity. -/
structure DeviceRegistry where
  usbDevs : List Device
  destroyed : List Nat
  freed : List Nat
  nextId : Nat
deriving DecidableEq

/-- usbi_alloc_device: a fresh device with refcount 1, linked at the head of
the registry list. -/
def usbi_alloc_device (sessionId : Nat) (s : DeviceRegistry) : DeviceRegistry :=
  { s with usbDevs := ⟨s.nextId, sessionId, 1⟩ :: s.usbDevs,
           nextId := s.nextId + 1 }

/-- libusb_ref_device: increment the named device's reference count. -/
def libusb_ref_device (did : Nat) (s : DeviceRegistry) : DeviceRegistry :=
  let bump := fun (d : Device) =>
    if d.devId = did then { d with refcnt := d.refcnt + 1 } else d
  { s with usbDevs := s.usbDevs.map bump }

/-- libusb_unref_device: decrement the reference count; exactly on the
transition to 0, invoke the backend destroy hook when the backend has one,
delink the device from the registry and free it.  hook records whether
usbi_backend->destroy_device is non-NULL; a did absent from the registry
models the NULL-pointer early return. -/
def libusb_unref_device (hook : Bool) (did : Nat) (s : DeviceRegistry) :
    DeviceRegistry :=
  match s.usbDevs.find? (fun d => d.devId = did) with
  | none => s
  | some d =>
    let refcnt := d.refcnt - 1
    let devs := s.usbDevs.map
      (fun x => if x.devId = did then { x with refcnt := refcnt } else x)
    if refcnt = 0 then
      { usbDevs := devs.filter (fun x => x.devId ≠ did),
        destroyed := if hook then s.destroyed ++ [did] else s.destroyed,
        freed := s.freed ++ [did],
        nextId := s.nextId }
    else { s with usbDevs := devs }

/-- One registry operation. -/
inductive DevOp where
  | alloc (sessionId : Nat)
  | ref (did : Nat)
  | unref (did : Nat)

/-- Apply one registry operation. -/
def applyDevOp (hook : Bool) (s : DeviceRegistry) : DevOp → DeviceRegistry
  | DevOp.alloc sid => usbi_alloc_device sid s
  | DevOp.ref did => libusb_ref_device did s
  | DevOp.unref did => libusb_unref_device hook did s

/-- The registry after a sequence of alloc / ref / unref operations from the
empty initial state. -/
def applyDevOps (hook : Bool) (ops : List DevOp) : DeviceRegistry :=
  ops.foldl (applyDevOp hook) ⟨[], [], [], 0⟩

/-- Well-formedness the C heap guarantees: every device in the registry was
allocated by usbi_alloc_device (so its identity is below nextId and
identities are distinct) — plus the registry refcount invariant. -/
def registryInv (s : DeviceRegistry) : Prop :=
  (∀ d ∈ s.usbDevs, 1 ≤ d.refcnt ∧ d.devId < s.nextId) ∧
    (s.usbDevs.map (fun d => d.devId)).Nodup

/-! ## Deadline computation (calculate_timeout) -/

/-- struct timespec from the monotonic clock: seconds and nanoseconds. -/
structure Timespec where
  sec : Nat
  nsec : Nat
deriving DecidableEq

/-- TIMESPEC_TO_TIMEVAL: microseconds are nanoseconds divided by 1000. -/
def timespecToTimeval (ts : Timespec) : Timeval :=
  ⟨ts.sec, ts.nsec / 1000⟩

/-- The deadline arithmetic of calculate_timeout: add the millisecond
timeout to the current monotonic time, then the source's normalization step,
which moves a nanosecond overflow into the seconds field only when the
nanoseconds are strictly greater than 1,000,000,000. -/
def calculateDeadline (current : Timespec) (timeoutMs : Nat) : Timespec :=
  let s := current.sec + timeoutMs / 1000
  let ns := current.nsec + (timeoutMs % 1000) * 1000000
  if ns > 1000000000 then ⟨s + 1, ns - 1000000000⟩ else ⟨s, ns⟩

/-- calculate_timeout: a zero timeout leaves the (zero-initialized, hence
unset) deadline alone; otherwise store the computed absolute deadline,
converted to a timeval, on the transfer. -/
def calculate_timeout (current : Timespec) (it : UsbiTransfer) : UsbiTransfer :=
  if it.pub.timeoutMs = 0 then it
  else { it with timeout := timespecToTimeval (calculateDeadline current it.pub.timeoutMs) }

/-- A normalized timespec as the claim demands: nanoseconds strictly below
one billion. -/
def timespecNormalized (ts : Timespec) : Prop := ts.nsec < 1000000000

instance (ts : Timespec) : Decidable (timespecNormalized ts) := by
  unfold timespecNormalized; exact inferInstance

/-- A normalized timeval: microseconds strictly below one million. -/
def timevalNormalized (tv : Timeval) : Prop := tv.usec < 1000000

instance (tv : Timeval) : Decidable (timevalNormalized tv) := by
  unfold timevalNormalized; exact inferInstance

/-! ## Concrete states used by witnesses and counterexamples -/

/-- A public transfer view with every flag clear and no callback. -/
def pubPlain : LibusbTransfer :=
  ⟨false, false, false, 0, 0, TransferStatus.completed, 0, false⟩

/-- A public transfer view with a user callback registered. -/
def pubWithCallback : LibusbTransfer :=
  ⟨false, false, false, 0, 0, TransferStatus.completed, 0, true⟩

/-- An infinite-timeout transfer (identity 0). -/
def sampleUnsetA : UsbiTransfer := ⟨0, pubPlain, ⟨0, 0⟩, 0, false, false⟩

/-- A second infinite-timeout transfer (identity 1). -/
def sampleUnsetB : UsbiTransfer := ⟨1, pubPlain, ⟨0, 0⟩, 0, false, false⟩

/-- A transfer whose deadline is 50000 microseconds. -/
def sample50ms : UsbiTransfer := ⟨3, pubPlain, ⟨0, 50000⟩, 0, false, false⟩

/-- A transfer whose deadline is 200000 microseconds. -/
def sample200ms : UsbiTransfer := ⟨2, pubPlain, ⟨0, 200000⟩, 0, false, false⟩

/-- In-flight entry with deadline at 5 seconds, unlatched. -/
def flight5s : UsbiTransfer := ⟨10, pubPlain, ⟨5, 0⟩, 0, false, false⟩

/-- In-flight entry with deadline at 10 seconds, already latched TIMED_OUT. -/
def flight10sLatched : UsbiTransfer := ⟨11, pubPlain, ⟨10, 0⟩, 0, false, true⟩

/-- In-flight entry with deadline at 20 seconds. -/
def flight20s : UsbiTransfer := ⟨12, pubPlain, ⟨20, 0⟩, 0, false, false⟩

/-- In-flight entry with infinite timeout. -/
def flightUnset : UsbiTransfer := ⟨13, pubPlain, ⟨0, 0⟩, 0, false, false⟩

/-- In-flight entry with deadline at 12 seconds. -/
def flight12s : UsbiTransfer := ⟨15, pubPlain, ⟨12, 0⟩, 0, false, false⟩

/-- The S4 scenario: bulk-IN, requested length 512, SHORT_NOT_OK set, the
backend observed 200 bytes. -/
def sampleBulk512 : UsbiTransfer :=
  ⟨7, ⟨false, true, false, 512, 0, TransferStatus.completed, 0, true⟩, ⟨0, 0⟩, 200, false, false⟩

/-- A submitted transfer about to be cancelled synchronously. -/
def sampleSyncTarget : UsbiTransfer := ⟨5, pubWithCallback, ⟨0, 0⟩, 0, false, false⟩

/-- A poll script: one quiet iteration, then one that reports this
transfer's cancellation. -/
def sampleSyncEvents : List PollEvent := [⟨false, 0⟩, ⟨true, 0⟩]

/-- A transfer whose cancellation completes with the TIMED_OUT latch set. -/
def sampleTimedOutLatchedT : UsbiTransfer := ⟨6, pubWithCallback, ⟨1, 0⟩, 0, false, true⟩

/-- A transfer cancelled by a plain asynchronous cancel. -/
def samplePlainCancelT : UsbiTransfer := ⟨8, pubWithCallback, ⟨0, 0⟩, 0, false, false⟩

/-- A transfer whose cancellation completes with SYNC_CANCELLED set. -/
def sampleSyncCancelledT : UsbiTransfer := ⟨9, pubWithCallback, ⟨0, 0⟩, 0, true, false⟩

/-- A transfer submitted with a 1-millisecond timeout. -/
def sampleOneMs : UsbiTransfer :=
  ⟨14, ⟨false, false, false, 0, 0, TransferStatus.completed, 1, false⟩, ⟨0, 0⟩, 0, false, false⟩

/-- A registry holding one device with refcount 1. -/
def regOne : DeviceRegistry := ⟨[⟨0, 7, 1⟩], [], [], 1⟩

/-- A registry holding one device with refcount 2. -/
def regTwo : DeviceRegistry := ⟨[⟨0, 7, 2⟩], [], [], 1⟩

end LibUSB

namespace LibUSB

/-! ## Theorems -/

/-- The silent branch of usbi_handle_transfer_cancellation: a sync-cancelled
transfer only has its flag cleared; no callback fires and nothing is
freed. -/
theorem cancellation_of_syncCancelled (it : UsbiTransfer)
    (h : it.syncCancelled = true) :
    usbi_handle_transfer_cancellation it =
      ⟨{ it with syncCancelled := false }, none, false⟩ := by
  simp [usbi_handle_transfer_cancellation, usbi_handle_transfer_completion, h]

/-- The scheduler ordering relation is transitive. -/
theorem schedLe_trans (a b c : Timeval) (hab : schedLe a b) (hbc : schedLe b c) :
    schedLe a c := by
  unfold schedLe timerisset timevalGt at *
  omega

/-- Membership after the insertion walk: the new transfer or an original
element. -/
theorem mem_flyingInsertWalk (t : UsbiTransfer) :
    ∀ (l : List UsbiTransfer) (x : UsbiTransfer),
      x ∈ flyingInsertWalk t l → x = t ∨ x ∈ l := by
  intro l
  induction l with
  | nil =>
    intro x hx
    simp [flyingInsertWalk] at hx
    exact Or.inl hx
  | cons cur rest ih =>
    intro x hx
    unfold flyingInsertWalk at hx
    by_cases hc : (¬ timerisset cur.timeout ∨ timevalGt cur.timeout t.timeout)
    · rw [if_pos hc] at hx
      rcases List.mem_cons.mp hx with h | h
      · exact Or.inl h
      · exact Or.inr h
    · rw [if_neg hc] at hx
      rcases List.mem_cons.mp hx with h | h
      · exact Or.inr (h ▸ List.mem_cons_self cur rest)
      · rcases ih x h with h1 | h1
        · exact Or.inl h1
        · exact Or.inr (List.mem_cons_of_mem cur h1)

/-- The insertion walk preserves the scheduler invariant for a set-deadline
transfer. -/
theorem schedInv_flyingInsertWalk (t : UsbiTransfer) (hset : timerisset t.timeout) :
    ∀ l, schedInv l → schedInv (flyingInsertWalk t l) := by
  intro l
  induction l with
  | nil =>
    intro _
    simp [flyingInsertWalk, schedInv]
  | cons cur rest ih =>
    intro h
    rw [schedInv, List.pairwise_cons] at h
    obtain ⟨h1, h2⟩ := h
    unfold flyingInsertWalk
    by_cases hc : (¬ timerisset cur.timeout ∨ timevalGt cur.timeout t.timeout)
    · rw [if_pos hc]
      rw [schedInv, List.pairwise_cons]
      have htc : schedLe t.timeout cur.timeout := by
        rcases hc with hc | hc
        · exact ⟨Or.inl hset, fun hb => absurd hb hc⟩
        · refine ⟨Or.inl hset, fun _ => ?_⟩
          unfold timevalGt at *
          omega
      refine ⟨?_, List.pairwise_cons.mpr ⟨h1, h2⟩⟩
      intro y hy
      rcases List.mem_cons.mp hy with rfl | hy2
      · exact htc
      · exact schedLe_trans _ _ _ htc (h1 y hy2)
    · rw [if_neg hc]
      push_neg at hc
      obtain ⟨hcset, hcgt⟩ := hc
      rw [schedInv, List.pairwise_cons]
      have hct : schedLe cur.timeout t.timeout := ⟨Or.inl hcset, fun _ => hcgt⟩
      refine ⟨?_, ih h2⟩
      intro y hy
      rcases mem_flyingInsertWalk t rest y hy with rfl | hy2
      · exact hct
      · exact h1 y hy2

/-- Appending an unset-deadline transfer preserves the scheduler
invariant. -/
theorem schedInv_append_unset (t : UsbiTransfer) (l : List UsbiTransfer)
    (hunset : ¬ timerisset t.timeout) (h : schedInv l) : schedInv (l ++ [t]) := by
  rw [schedInv, List.pairwise_append]
  refine ⟨h, List.pairwise_singleton _ _, ?_⟩
  intro x _ y hy
  simp only [List.mem_singleton] at hy
  subst hy
  exact ⟨Or.inr hunset, fun hb => absurd hb hunset⟩

/-- add_to_flying_list preserves the scheduler invariant. -/
theorem schedInv_add_to_flying_list (t : UsbiTransfer) (l : List UsbiTransfer)
    (h : schedInv l) : schedInv (add_to_flying_list t l) := by
  unfold add_to_flying_list
  by_cases he : l = []
  · rw [if_pos he]
    exact List.pairwise_singleton _ _
  · rw [if_neg he]
    by_cases hset : ¬ timerisset t.timeout
    · rw [if_pos hset]
      exact schedInv_append_unset t l hset h
    · rw [if_neg hset]
      exact schedInv_flyingInsertWalk t (not_not.mp hset) l h

/-- The O(1) delink preserves the scheduler invariant. -/
theorem schedInv_eraseIdx (l : List UsbiTransfer) (i : Nat) (h : schedInv l) :
    schedInv (l.eraseIdx i) :=
  List.Pairwise.sublist (List.eraseIdx_sublist l i) h

/-- Every operation sequence starting from the empty scheduler satisfies the
invariant. -/
theorem schedInv_applySchedOps (ops : List SchedOp) : schedInv (applySchedOps ops) := by
  unfold applySchedOps
  have step : ∀ l, schedInv l → schedInv (ops.foldl applySchedOp l) := by
    induction ops with
    | nil =>
      intro l h
      exact h
    | cons op rest ih =>
      intro l h
      rw [List.foldl_cons]
      apply ih
      cases op with
      | submit t => exact schedInv_add_to_flying_list t l h
      | remove i => exact schedInv_eraseIdx l i h
  exact step [] List.Pairwise.nil

/-- The source's insertion walk coincides with the specification's insertion
sentence. -/
theorem flyingInsertWalk_eq_specInsert (t : UsbiTransfer) :
    ∀ l, flyingInsertWalk t l = specInsert t l := by
  intro l
  induction l with
  | nil => rfl
  | cons cur rest ih =>
    simp only [flyingInsertWalk, specInsert, ih]

/-- C1 (amended): every sequence of submissions and removals preserves the
scheduler ordering — set deadlines non-decreasing from the head, unset
deadlines a contiguous tail suffix; a set-deadline transfer is inserted
before the first element whose deadline is unset or strictly greater (as the
claim's insertion sentence says); an unset-deadline transfer, however, is
appended at the very tail, after any unset entries already present. -/
theorem scheduler_ordering_invariant :
    (∀ ops : List SchedOp, schedInv (applySchedOps ops)) ∧
    (∀ (t : UsbiTransfer) (l : List UsbiTransfer), timerisset t.timeout →
      add_to_flying_list t l = specInsert t l) ∧
    (∀ (t : UsbiTransfer) (l : List UsbiTransfer), ¬ timerisset t.timeout →
      add_to_flying_list t l = l ++ [t]) := by
  refine ⟨schedInv_applySchedOps, ?_, ?_⟩
  · intro t l hset
    unfold add_to_flying_list
    by_cases he : l = []
    · subst he
      rw [if_pos rfl]
      rfl
    · rw [if_neg he, if_neg (not_not_intro hset)]
      exact flyingInsertWalk_eq_specInsert t l
  · intro t l hunset
    unfold add_to_flying_list
    by_cases he : l = []
    · subst he
      rw [if_pos rfl]
      rfl
    · rw [if_neg he, if_pos hunset]

/-- C1 counterexample: inserting a second infinite-timeout transfer. The
claim's insertion rule would place it before the first unset-deadline
element, but add_to_flying_list appends it after the existing unset
entry. -/
theorem scheduler_unset_insert_counterexample :
    add_to_flying_list sampleUnsetB [sampleUnsetA] ≠
      specInsert sampleUnsetB [sampleUnsetA] := by
  decide

/-- C1 witness: the S5 submission order (200 ms, infinite, 50 ms) satisfies
the invariant, a set-deadline insert follows the claim's walk, and an unset
insert appends. -/
theorem scheduler_ordering_invariant_witness :
    schedInv (applySchedOps
      [SchedOp.submit sample200ms, SchedOp.submit sampleUnsetA, SchedOp.submit sample50ms]) ∧
    add_to_flying_list sample50ms [sample200ms] = specInsert sample50ms [sample200ms] ∧
    add_to_flying_list sampleUnsetA [sample200ms] = [sample200ms] ++ [sampleUnsetA] :=
  ⟨scheduler_ordering_invariant.1 _,
   scheduler_ordering_invariant.2.1 _ _ (by decide),
   scheduler_ordering_invariant.2.2 _ _ (by decide)⟩

/-- Mapping a guarded update over a list none of whose elements satisfy the
guard is the identity. -/
theorem map_if_not {α : Type} (p : α → Prop) [DecidablePred p] (f : α → α) :
    ∀ l : List α, (∀ x ∈ l, ¬ p x) → (l.map fun x => if p x then f x else x) = l := by
  intro l h
  induction l with
  | nil => rfl
  | cons a t ih =>
    simp only [List.map_cons]
    rw [if_neg (h a (List.mem_cons_self a t)),
      ih (fun x hx => h x (List.mem_cons_of_mem a hx))]

/-- Filtering by a predicate no element satisfies yields the empty list. -/
theorem filter_if_not {α : Type} (p : α → Prop) [DecidablePred p] :
    ∀ l : List α, (∀ x ∈ l, ¬ p x) → l.filter (fun x => decide (p x)) = [] := by
  intro l h
  induction l with
  | nil => rfl
  | cons a t ih =>
    rw [List.filter_cons_of_neg (by simpa using h a (List.mem_cons_self a t)),
      ih (fun x hx => h x (List.mem_cons_of_mem a hx))]

/-- Beyond an unset deadline the scheduler holds only unset deadlines. -/
theorem sweep_stop_unset (a b : Timeval) (h1 : ¬ timerisset a) (h2 : schedLe a b) :
    ¬ timerisset b := by
  unfold schedLe timerisset at *
  omega

/-- Beyond a set deadline strictly after now, every later set deadline is
also strictly after now. -/
theorem sweep_stop_after (a b now : Timeval) (h2 : timevalGt a now)
    (h3 : schedLe a b) (h4 : timerisset b) : timevalGt b now := by
  unfold schedLe timerisset timevalGt at *
  omega

/-- The sweep walk on an invariant-satisfying list: each expired, unlatched
entry is latched and cancelled; everything else is untouched; nothing is
delinked. -/
theorem sweepWalk_characterization (now : Timeval) :
    ∀ l, schedInv l →
      sweepWalk now l =
        ⟨l.map (fun t => if expiredUnlatched now t then handle_timeout t else t),
         (l.filter (fun t => decide (expiredUnlatched now t))).map (fun t => t.tid)⟩ := by
  intro l
  induction l with
  | nil =>
    intro _
    rfl
  | cons t rest ih =>
    intro h
    rw [schedInv, List.pairwise_cons] at h
    obtain ⟨h1, h2⟩ := h
    unfold sweepWalk
    by_cases hu : ¬ timerisset t.timeout
    · rw [if_pos hu]
      have hall : ∀ x ∈ t :: rest, ¬ expiredUnlatched now x := by
        intro x hx
        rcases List.mem_cons.mp hx with rfl | hx2
        · exact fun he => hu he.1
        · exact fun he => (sweep_stop_unset _ _ hu (h1 x hx2)) he.1
      rw [map_if_not _ _ _ hall, filter_if_not _ _ hall]
      rfl
    · rw [if_neg hu]
      have hset : timerisset t.timeout := not_not.mp hu
      by_cases hl : t.timedOut = true
      · rw [if_pos hl]
        have hnot : ¬ expiredUnlatched now t := by
          intro he
          obtain ⟨-, hfalse, -⟩ := he
          rw [hl] at hfalse
          exact absurd hfalse (by simp)
        rw [ih h2]
        simp only [List.map_cons, if_neg hnot]
        rw [List.filter_cons_of_neg (by simpa using hnot)]
      · rw [if_neg hl]
        by_cases hg : timevalGt t.timeout now
        · rw [if_pos hg]
          have hall : ∀ x ∈ t :: rest, ¬ expiredUnlatched now x := by
            intro x hx
            rcases List.mem_cons.mp hx with rfl | hx2
            · exact fun he => he.2.2 hg
            · exact fun he => he.2.2 (sweep_stop_after _ _ now hg (h1 x hx2) he.1)
          rw [map_if_not _ _ _ hall, filter_if_not _ _ hall]
          rfl
        · rw [if_neg hg]
          have hexp : expiredUnlatched now t :=
            ⟨hset, by simpa using hl, hg⟩
          rw [ih h2]
          simp only [List.map_cons, if_pos hexp]
          rw [List.filter_cons_of_pos (by simpa using hexp)]
          simp only [List.map_cons]

/-- C2: the timeout sweep on an invariant-satisfying in-flight list latches
the TIMED_OUT flag on exactly the expired, not-yet-latched entries before
the stop point and issues one asynchronous backend cancel per such entry, in
list order; no entry is delinked (the output list is element-for-element the
input with only latch updates) and the sweep delivers no completion
status. -/
theorem sweep_timeouts_characterization (now : Timeval) (l : List UsbiTransfer)
    (h : schedInv l) :
    handle_timeouts now l =
      ⟨l.map (fun t => if expiredUnlatched now t then handle_timeout t else t),
       (l.filter (fun t => decide (expiredUnlatched now t))).map (fun t => t.tid)⟩ := by
  unfold handle_timeouts
  by_cases he : l = []
  · subst he
    rfl
  · rw [if_neg he]
    exact sweepWalk_characterization now l h

/-- C2 witness: at time 12 s over deadlines 5 s (unlatched), 10 s (already
latched), 20 s, infinite — only the 5 s entry is latched and cancelled, the
walk stops before the 20 s entry, nothing is delinked. -/
theorem sweep_timeouts_characterization_witness :
    handle_timeouts ⟨12, 0⟩ [flight5s, flight10sLatched, flight20s, flightUnset] =
      ⟨[handle_timeout flight5s, flight10sLatched, flight20s, flightUnset], [10]⟩ := by
  have h := sweep_timeouts_characterization ⟨12, 0⟩
    [flight5s, flight10sLatched, flight20s, flightUnset] (by decide)
  simpa using h

/-- C4: a COMPLETED backend report on a SHORT_NOT_OK transfer whose observed
byte count is below the requested length (setup header subtracted for
control) is published as ERROR, with actual_length equal to the observed
count; the user callback, when registered, observes ERROR. -/
theorem short_transfer_completion_rewrites_error (it : UsbiTransfer)
    (hflag : it.pub.flagsShortNotOk = true)
    (hshort : it.transferred < requestedLength it) :
    (usbi_handle_transfer_completion it TransferStatus.completed).itransfer.pub.status
        = TransferStatus.error ∧
    (usbi_handle_transfer_completion it TransferStatus.completed).itransfer.pub.actualLength
        = it.transferred ∧
    (usbi_handle_transfer_completion it TransferStatus.completed).callback
        = (if it.pub.hasCallback then some TransferStatus.error else none) := by
  have hne : requestedLength it ≠ it.transferred := by omega
  simp [usbi_handle_transfer_completion, hflag, hne]

/-- C4 witness: the S4 scenario — bulk-IN of length 512 with SHORT_NOT_OK,
backend reports COMPLETED with 200 bytes; the callback observes ERROR and
actual_length 200. -/
theorem short_transfer_completion_rewrites_error_witness :
    (usbi_handle_transfer_completion sampleBulk512 TransferStatus.completed).itransfer.pub.status
        = TransferStatus.error ∧
    (usbi_handle_transfer_completion sampleBulk512 TransferStatus.completed).itransfer.pub.actualLength
        = (200 : Int) ∧
    (usbi_handle_transfer_completion sampleBulk512 TransferStatus.completed).callback
        = some TransferStatus.error :=
  short_transfer_completion_rewrites_error sampleBulk512 (by decide) (by decide)

/-- C5: the outcome of a cancellation completion follows the engine-flag
priority: SYNC_CANCELLED yields a silent completion with the flag cleared
and no callback; else a latched TIMED_OUT yields callback status TIMED_OUT;
else callback status CANCELLED. -/
theorem cancellation_status_priority (it : UsbiTransfer)
    (hcb : it.pub.hasCallback = true) :
    (it.syncCancelled = true →
      usbi_handle_transfer_cancellation it =
        ⟨{ it with syncCancelled := false }, none, false⟩) ∧
    (it.syncCancelled = false → it.timedOut = true →
      (usbi_handle_transfer_cancellation it).callback = some TransferStatus.timedOut) ∧
    (it.syncCancelled = false → it.timedOut = false →
      (usbi_handle_transfer_cancellation it).callback = some TransferStatus.cancelled) := by
  refine ⟨fun h1 => cancellation_of_syncCancelled it h1, fun h1 h2 => ?_, fun h1 h2 => ?_⟩ <;>
    simp [usbi_handle_transfer_cancellation, usbi_handle_transfer_completion, h1, h2, hcb]

/-- C5 witness: the three priorities at concrete transfers — sync-cancelled
(silent, flag cleared), timed-out latch (TIMED_OUT), plain cancel
(CANCELLED). -/
theorem cancellation_status_priority_witness :
    usbi_handle_transfer_cancellation sampleSyncCancelledT =
      ⟨{ sampleSyncCancelledT with syncCancelled := false }, none, false⟩ ∧
    (usbi_handle_transfer_cancellation sampleTimedOutLatchedT).callback
      = some TransferStatus.timedOut ∧
    (usbi_handle_transfer_cancellation samplePlainCancelT).callback
      = some TransferStatus.cancelled :=
  ⟨(cancellation_status_priority sampleSyncCancelledT rfl).1 rfl,
   (cancellation_status_priority sampleTimedOutLatchedT rfl).2.1 rfl rfl,
   (cancellation_status_priority samplePlainCancelT rfl).2.2 rfl rfl⟩

/-- C9: the deadline computed by calculate_timeout is not always normalized.
The normalization step uses a strict comparison, so when the nanosecond sum
lands exactly on 1,000,000,000 the carry is skipped: from monotonic time
0.999000000 s and a 1 ms timeout the stored deadline has tv_nsec =
1,000,000,000 and hence tv_usec = 1,000,000, violating the normalization the
claim states. -/
theorem calculate_timeout_boundary_denormalized :
    calculateDeadline ⟨0, 999000000⟩ 1 = ⟨0, 1000000000⟩ ∧
    ¬ timespecNormalized (calculateDeadline ⟨0, 999000000⟩ 1) ∧
    (calculate_timeout ⟨0, 999000000⟩ sampleOneMs).timeout = ⟨0, 1000000⟩ ∧
    ¬ timevalNormalized (calculate_timeout ⟨0, 999000000⟩ sampleOneMs).timeout := by
  decide

/-- The loop of libusb_cancel_transfer_sync, when it terminates with return
value 0 starting from a transfer whose SYNC_CANCELLED flag is set: the only
state change is the cleared flag, no callback status was logged beyond what
the loop started with, and some script entry delivered the cancellation. -/
theorem syncCancelLoop_of_cleared (evs : List PollEvent) (it : UsbiTransfer)
    (log : List TransferStatus) (h : it.syncCancelled = false) :
    syncCancelLoop evs it log = some ⟨0, it, log⟩ := by
  unfold syncCancelLoop
  simp [h]

theorem syncCancelLoop_ret_zero (evs : List PollEvent) :
    ∀ (it : UsbiTransfer) (log : List TransferStatus) (res : SyncCancelResult),
      it.syncCancelled = true → syncCancelLoop evs it log = some res → res.ret = 0 →
      res.itransfer = { it with syncCancelled := false } ∧ res.callbacks = log ∧
      ∃ ev ∈ evs, ev.deliverCancel = true := by
  induction evs with
  | nil =>
    intro it log res h1 h2 _
    unfold syncCancelLoop at h2
    simp [h1] at h2
  | cons ev rest ih =>
    intro it log res h1 h2 h3
    unfold syncCancelLoop at h2
    rw [h1] at h2
    simp only [Bool.true_eq_false, if_false] at h2
    by_cases hd : ev.deliverCancel = true
    · rw [cancellation_of_syncCancelled it h1] at h2
      simp only [hd, if_true, Option.toList_none, List.append_nil] at h2
      by_cases hr : ev.ret < 0
      · rw [if_pos hr] at h2
        cases h2
        simp at h3
        omega
      · rw [if_neg hr] at h2
        rw [syncCancelLoop_of_cleared rest _ log rfl] at h2
        cases h2
        exact ⟨rfl, rfl, ev, List.mem_cons_self ev rest, hd⟩
    · simp only [hd, if_false] at h2
      by_cases hr : ev.ret < 0
      · rw [if_pos hr] at h2
        cases h2
        simp at h3
        omega
      · rw [if_neg hr] at h2
        obtain ⟨a, b, ev2, hev2, hdel⟩ := ih it log res h1 h2 h3
        exact ⟨a, b, ev2, List.mem_cons_of_mem ev hev2, hdel⟩

/-- C3: when libusb_cancel_transfer_sync returns 0 (the backend accepted the
cancel and the event loop eventually delivered the cancellation), the
transfer has reached its terminal state with the SYNC_CANCELLED flag cleared
and nothing else changed — the completion was delivered silently — the user
callback never fired, and some event-loop iteration delivered the
cancellation. -/
theorem cancel_transfer_sync_suppresses_callback (evs : List PollEvent)
    (it : UsbiTransfer) (res : SyncCancelResult)
    (hrun : libusb_cancel_transfer_sync 0 evs it = some res) (hret : res.ret = 0) :
    res.itransfer = { it with syncCancelled := false } ∧
    res.callbacks = [] ∧
    ∃ ev ∈ evs, ev.deliverCancel = true := by
  unfold libusb_cancel_transfer_sync at hrun
  norm_num at hrun
  exact syncCancelLoop_ret_zero evs { it with syncCancelled := true } [] res rfl hrun hret

/-- C3 witness: the S3 scenario — a quiet poll, then one that reports the
cancellation; the call returns 0, the flag ends cleared and the user
callback never ran. -/
theorem cancel_transfer_sync_suppresses_callback_witness :
    (⟨0, { sampleSyncTarget with syncCancelled := false }, []⟩ : SyncCancelResult).itransfer
        = { sampleSyncTarget with syncCancelled := false } ∧
    (⟨0, { sampleSyncTarget with syncCancelled := false }, []⟩ : SyncCancelResult).callbacks
        = ([] : List TransferStatus) ∧
    ∃ ev ∈ sampleSyncEvents, ev.deliverCancel = true :=
  cancel_transfer_sync_suppresses_callback sampleSyncEvents sampleSyncTarget
    ⟨0, { sampleSyncTarget with syncCancelled := false }, []⟩ (by decide) rfl

/-- Converting a small natural through the int-to-size_t conversion is the
identity. -/
theorem intToSizeT_ofNat (n : Nat) (h : n < 2 ^ 64) : intToSizeT (n : Int) = n := by
  unfold intToSizeT
  have hp : (2 : Int) ^ 64 = 18446744073709551616 := by norm_num
  rw [hp]
  omega

/-- Clearing a bit with the complement-within-width mask indeed clears
it. -/
theorem testBit_clear_mask (x n w : Nat) (h : n < w) :
    (x &&& ((2 ^ w - 1) ^^^ (1 <<< n))).testBit n = false := by
  rw [Nat.testBit_and, Nat.testBit_xor, Nat.one_shiftLeft,
    Nat.testBit_two_pow_sub_one, Nat.testBit_two_pow_self, decide_eq_true h]
  simp

/-- C7: the claimed-interface bitmap tracks backend acceptance exactly:
claiming an already-set bit returns 0 without calling the backend and leaves
the handle untouched; claiming a clear bit calls the backend and the bit
ends set iff the backend returned success; releasing a clear bit fails
NOT_FOUND without calling the backend; releasing a set bit calls the backend
and the bit ends clear iff the backend returned success. -/
theorem claimed_interface_bitmap_tracks_backend (backendRet : Int)
    (dev : DeviceHandle) (n : Nat) (hn : n < claimedIfaceWidth) :
    (dev.claimedInterfaces.testBit n = true →
      libusb_claim_interface backendRet dev (n : Int) = ⟨0, dev, false⟩) ∧
    (dev.claimedInterfaces.testBit n = false →
      (libusb_claim_interface backendRet dev (n : Int)).backendCalled = true ∧
      ((libusb_claim_interface backendRet dev (n : Int)).handle.claimedInterfaces.testBit n = true
        ↔ backendRet = 0)) ∧
    (dev.claimedInterfaces.testBit n = false →
      libusb_release_interface backendRet dev (n : Int) =
        ⟨LIBUSB_ERROR_NOT_FOUND, dev, false⟩) ∧
    (dev.claimedInterfaces.testBit n = true →
      (libusb_release_interface backendRet dev (n : Int)).backendCalled = true ∧
      ((libusb_release_interface backendRet dev (n : Int)).handle.claimedInterfaces.testBit n = false
        ↔ backendRet = 0)) := by
  have hn32 : n < 32 := by
    unfold claimedIfaceWidth at hn
    omega
  have hs : intToSizeT (n : Int) = n := intToSizeT_ofNat n (by omega)
  have hw : ¬ (claimedIfaceWidth ≤ n) := by
    omega
  refine ⟨fun hb => ?_, fun hb => ?_, fun hb => ?_, fun hb => ?_⟩
  · unfold libusb_claim_interface
    rw [hs, if_neg hw, if_pos hb]
  · unfold libusb_claim_interface
    rw [hs, if_neg hw, if_neg (show ¬ (dev.claimedInterfaces.testBit n = true) by simp [hb])]
    by_cases hr : backendRet = 0
    · rw [if_pos hr]
      refine ⟨rfl, ?_⟩
      simp [Nat.one_shiftLeft, Nat.testBit_two_pow_self, hr]
    · rw [if_neg hr]
      simp [hb, hr]
  · unfold libusb_release_interface
    rw [hs, if_neg hw, if_pos (show ¬ (dev.claimedInterfaces.testBit n = true) by simp [hb])]
  · unfold libusb_release_interface
    rw [hs, if_neg hw, if_neg (not_not_intro hb)]
    by_cases hr : backendRet = 0
    · rw [if_pos hr]
      refine ⟨rfl, ?_⟩
      simp [testBit_clear_mask dev.claimedInterfaces n claimedIfaceWidth hn, hr]
    · rw [if_neg hr]
      simp [hb, hr]

/-- C7 witness: on a handle whose bitmap is 2 (bit 1 set): claiming bit 1 is
a no-op success; claiming bit 0 with a successful backend sets it; releasing
bit 0 fails NOT_FOUND; releasing bit 1 with a successful backend clears
it. -/
theorem claimed_interface_bitmap_tracks_backend_witness :
    libusb_claim_interface 0 ⟨2⟩ ((1 : Nat) : Int) = ⟨0, ⟨2⟩, false⟩ ∧
    ((libusb_claim_interface 0 ⟨2⟩ ((0 : Nat) : Int)).handle.claimedInterfaces.testBit 0 = true
      ↔ (0 : Int) = 0) ∧
    libusb_release_interface 0 ⟨2⟩ ((0 : Nat) : Int) = ⟨LIBUSB_ERROR_NOT_FOUND, ⟨2⟩, false⟩ ∧
    ((libusb_release_interface 0 ⟨2⟩ ((1 : Nat) : Int)).handle.claimedInterfaces.testBit 1 = false
      ↔ (0 : Int) = 0) :=
  ⟨(claimed_interface_bitmap_tracks_backend 0 ⟨2⟩ 1 (by decide)).1 (by decide),
   ((claimed_interface_bitmap_tracks_backend 0 ⟨2⟩ 0 (by decide)).2.1 (by decide)).2,
   (claimed_interface_bitmap_tracks_backend 0 ⟨2⟩ 0 (by decide)).2.2.1 (by decide),
   ((claimed_interface_bitmap_tracks_backend 0 ⟨2⟩ 1 (by decide)).2.2.2 (by decide)).2⟩

/-- The source's range check, an int compared against a size_t, is
equivalent to the mathematical out-of-range condition for every value a
32-bit int can hold. -/
theorem range_check_iff (n : Int) (h1 : -(2 ^ 31) ≤ n) (h2 : n < 2 ^ 31) :
    (claimedIfaceWidth ≤ intToSizeT n) ↔ (n < 0 ∨ (claimedIfaceWidth : Int) ≤ n) := by
  unfold intToSizeT claimedIfaceWidth
  have hp : (2 : Int) ^ 64 = 18446744073709551616 := by norm_num
  have h31 : (2 : Int) ^ 31 = 2147483648 := by norm_num
  rw [h31] at h1 h2
  rw [hp]
  omega

/-- C10: claim_interface, release_interface and set_interface_alt_setting
return ERROR_INVALID_PARAM with the backend uncalled and the bitmap
untouched exactly when the interface number lies outside [0, bitmap width);
the int-to-size_t conversion in the comparison makes every negative number
land in the rejected range. -/
theorem interface_number_range_check (backendRet : Int) (dev : DeviceHandle)
    (n alt : Int) (h1 : -(2 ^ 31) ≤ n) (h2 : n < 2 ^ 31) :
    ((libusb_claim_interface backendRet dev n = ⟨LIBUSB_ERROR_INVALID_PARAM, dev, false⟩) ↔
      (n < 0 ∨ (claimedIfaceWidth : Int) ≤ n)) ∧
    ((libusb_release_interface backendRet dev n = ⟨LIBUSB_ERROR_INVALID_PARAM, dev, false⟩) ↔
      (n < 0 ∨ (claimedIfaceWidth : Int) ≤ n)) ∧
    ((libusb_set_interface_alt_setting backendRet dev n alt =
        ⟨LIBUSB_ERROR_INVALID_PARAM, dev, false⟩) ↔
      (n < 0 ∨ (claimedIfaceWidth : Int) ≤ n)) := by
  rw [← range_check_iff n h1 h2]
  by_cases hc : claimedIfaceWidth ≤ intToSizeT n
  · simp [libusb_claim_interface, libusb_release_interface,
      libusb_set_interface_alt_setting, hc]
  · simp only [hc, iff_false]
    refine ⟨?_, ?_, ?_⟩
    · unfold libusb_claim_interface
      rw [if_neg hc]
      by_cases ht : dev.claimedInterfaces.testBit (intToSizeT n) = true
      · simp [ht, LIBUSB_ERROR_INVALID_PARAM]
      · by_cases hr : backendRet = 0 <;>
          simp [ht, hr, LIBUSB_ERROR_INVALID_PARAM]
    · unfold libusb_release_interface
      rw [if_neg hc]
      by_cases ht : dev.claimedInterfaces.testBit (intToSizeT n) = true
      · by_cases hr : backendRet = 0 <;>
          simp [ht, hr, LIBUSB_ERROR_INVALID_PARAM]
      · simp [ht, LIBUSB_ERROR_INVALID_PARAM, LIBUSB_ERROR_NOT_FOUND]
    · unfold libusb_set_interface_alt_setting
      rw [if_neg hc]
      by_cases ht : dev.claimedInterfaces.testBit (intToSizeT n) = true
      · simp [ht, LIBUSB_ERROR_INVALID_PARAM]
      · simp [ht, LIBUSB_ERROR_INVALID_PARAM, LIBUSB_ERROR_NOT_FOUND]

/-- C10 witness: interface number -1 is rejected with ERROR_INVALID_PARAM by
all three operations, with the backend uncalled and the bitmap untouched. -/
theorem interface_number_range_check_witness :
    libusb_claim_interface 0 ⟨0⟩ (-1) = ⟨LIBUSB_ERROR_INVALID_PARAM, ⟨0⟩, false⟩ ∧
    libusb_release_interface 0 ⟨0⟩ (-1) = ⟨LIBUSB_ERROR_INVALID_PARAM, ⟨0⟩, false⟩ ∧
    libusb_set_interface_alt_setting 0 ⟨0⟩ (-1) 0 =
      ⟨LIBUSB_ERROR_INVALID_PARAM, ⟨0⟩, false⟩ :=
  ⟨(interface_number_range_check 0 ⟨0⟩ (-1) 0 (by norm_num) (by norm_num)).1.mpr
      (Or.inl (by norm_num)),
   (interface_number_range_check 0 ⟨0⟩ (-1) 0 (by norm_num) (by norm_num)).2.1.mpr
      (Or.inl (by norm_num)),
   (interface_number_range_check 0 ⟨0⟩ (-1) 0 (by norm_num) (by norm_num)).2.2.mpr
      (Or.inl (by norm_num))⟩

/-- With distinct identities, looking up a member device finds exactly
it. -/
theorem find_device_of_nodup (l : List Device) (d : Device)
    (hn : (l.map (fun x => x.devId)).Nodup) (hd : d ∈ l) :
    l.find? (fun x => x.devId = d.devId) = some d := by
  induction l with
  | nil => cases hd
  | cons a t ih =>
    rw [List.map_cons, List.nodup_cons] at hn
    obtain ⟨ha, ht⟩ := hn
    rcases List.mem_cons.mp hd with rfl | hd2
    · rw [List.find?_cons_of_pos _ (by simp)]
    · have hne : a.devId ≠ d.devId := by
        intro he
        exact ha (he ▸ List.mem_map_of_mem (fun x => x.devId) hd2)
      rw [List.find?_cons_of_neg _ (by simp [hne])]
      exact ih ht hd2

/-- Identities are untouched by the refcount updates the registry
operations perform. -/
theorem map_devId_update (l : List Device) (did : Nat) (f : Device → Int) :
    ((l.map (fun x => if x.devId = did then { x with refcnt := f x } else x)).map
        (fun x => x.devId)) = l.map (fun x => x.devId) := by
  induction l with
  | nil => rfl
  | cons a t ih =>
    simp only [List.map_cons, ih]
    by_cases ha : a.devId = did
    · rw [if_pos ha]
    · rw [if_neg ha]

/-- libusb_unref_device on a device with refcount 1, in a well-formed
registry: the device is delinked, the destroy hook fires exactly once when
present, and the storage is freed. -/
theorem unref_device_last (hook : Bool) (s : DeviceRegistry) (d : Device)
    (hn : (s.usbDevs.map (fun x => x.devId)).Nodup) (hd : d ∈ s.usbDevs)
    (hr : d.refcnt = 1) :
    (∀ x ∈ (libusb_unref_device hook d.devId s).usbDevs, x.devId ≠ d.devId) ∧
    (libusb_unref_device hook d.devId s).destroyed =
      (if hook then s.destroyed ++ [d.devId] else s.destroyed) ∧
    (libusb_unref_device hook d.devId s).freed = s.freed ++ [d.devId] := by
  have h0 : d.refcnt - 1 = 0 := by omega
  refine ⟨?_, ?_, ?_⟩
  · intro x hx
    simp only [libusb_unref_device,
      find_device_of_nodup s.usbDevs d hn hd, h0] at hx
    simp at hx
    exact hx.2
  · simp [libusb_unref_device, find_device_of_nodup s.usbDevs d hn hd, h0]
  · simp [libusb_unref_device, find_device_of_nodup s.usbDevs d hn hd, h0]

/-- libusb_unref_device on a device with refcount above 1, in a well-formed
registry: the device stays in the registry with the decremented count and
neither the destroy hook nor the free runs. -/
theorem unref_device_decrement (hook : Bool) (s : DeviceRegistry) (d : Device)
    (hn : (s.usbDevs.map (fun x => x.devId)).Nodup) (hd : d ∈ s.usbDevs)
    (hr : 1 < d.refcnt) :
    { d with refcnt := d.refcnt - 1 } ∈ (libusb_unref_device hook d.devId s).usbDevs ∧
    (libusb_unref_device hook d.devId s).destroyed = s.destroyed ∧
    (libusb_unref_device hook d.devId s).freed = s.freed := by
  have h0 : ¬ (d.refcnt - 1 = 0) := by omega
  refine ⟨?_, ?_, ?_⟩
  · simp only [libusb_unref_device, find_device_of_nodup s.usbDevs d hn hd,
      if_neg h0]
    have hfd : (fun x => if x.devId = d.devId then { x with refcnt := d.refcnt - 1 } else x) d
        = { d with refcnt := d.refcnt - 1 } := by
      simp
    exact hfd ▸ List.mem_map_of_mem _ hd
  · simp [libusb_unref_device, find_device_of_nodup s.usbDevs d hn hd, h0]
  · simp [libusb_unref_device, find_device_of_nodup s.usbDevs d hn hd, h0]

/-- usbi_alloc_device preserves the registry invariant. -/
theorem registryInv_alloc (sid : Nat) (s : DeviceRegistry) (h : registryInv s) :
    registryInv (usbi_alloc_device sid s) := by
  obtain ⟨h1, h2⟩ := h
  refine ⟨?_, ?_⟩
  · intro d hd
    simp only [usbi_alloc_device] at hd ⊢
    rcases List.mem_cons.mp hd with rfl | hd2
    · exact ⟨by norm_num, show s.nextId < s.nextId + 1 by omega⟩
    · have := h1 d hd2
      exact ⟨this.1, by omega⟩
  · simp only [usbi_alloc_device, List.map_cons, List.nodup_cons]
    refine ⟨?_, h2⟩
    intro hmem
    obtain ⟨x, hx, hxe⟩ := List.mem_map.mp hmem
    have := (h1 x hx).2
    omega

/-- libusb_ref_device preserves the registry invariant. -/
theorem registryInv_ref (did : Nat) (s : DeviceRegistry) (h : registryInv s) :
    registryInv (libusb_ref_device did s) := by
  obtain ⟨h1, h2⟩ := h
  refine ⟨?_, ?_⟩
  · intro d hd
    simp only [libusb_ref_device] at hd ⊢
    obtain ⟨x, hx, hxe⟩ := List.mem_map.mp hd
    have hx1 := h1 x hx
    by_cases hxd : x.devId = did
    · rw [if_pos hxd] at hxe
      subst hxe
      refine ⟨?_, ?_⟩
      · have := hx1.1
        show 1 ≤ x.refcnt + 1
        omega
      · show x.devId < s.nextId
        exact hx1.2
    · rw [if_neg hxd] at hxe
      subst hxe
      exact hx1
  · simp only [libusb_ref_device]
    have hids := map_devId_update s.usbDevs did (fun x => x.refcnt + 1)
    simpa [hids] using h2

/-- libusb_unref_device preserves the registry invariant. -/
theorem registryInv_unref (hook : Bool) (did : Nat) (s : DeviceRegistry)
    (h : registryInv s) : registryInv (libusb_unref_device hook did s) := by
  obtain ⟨h1, h2⟩ := h
  unfold libusb_unref_device
  cases hf : s.usbDevs.find? (fun d => d.devId = did) with
  | none => exact ⟨h1, h2⟩
  | some d =>
    have hdmem : d ∈ s.usbDevs := List.mem_of_find?_eq_some hf
    have hd1 := h1 d hdmem
    dsimp only
    by_cases hz : d.refcnt - 1 = 0
    · rw [if_pos hz]
      refine ⟨?_, ?_⟩
      · intro x hx
        have hx2 := List.mem_of_mem_filter hx
        obtain ⟨y, hy, hye⟩ := List.mem_map.mp hx2
        by_cases hyd : y.devId = did
        · rw [if_pos hyd] at hye
          have hxne : x.devId ≠ did := by
            have := List.of_mem_filter hx
            simpa using this
          rw [← hye] at hxne
          exact absurd hyd hxne
        · rw [if_neg hyd] at hye
          subst hye
          exact h1 y hy
      · have hsub : ((((s.usbDevs.map
            (fun x => if x.devId = did then { x with refcnt := d.refcnt - 1 } else x)).filter
              (fun x => x.devId ≠ did)).map (fun x => x.devId)).Sublist
            (s.usbDevs.map (fun x => x.devId))) := by
          have hupd := map_devId_update s.usbDevs did (fun _ => d.refcnt - 1)
          rw [← hupd]
          exact List.Sublist.map _ (List.filter_sublist _)
        exact h2.sublist hsub
    · rw [if_neg hz]
      refine ⟨?_, ?_⟩
      · intro x hx
        obtain ⟨y, hy, hye⟩ := List.mem_map.mp hx
        have hy1 := h1 y hy
        by_cases hyd : y.devId = did
        · rw [if_pos hyd] at hye
          subst hye
          refine ⟨?_, ?_⟩
          · show 1 ≤ d.refcnt - 1
            omega
          · show y.devId < s.nextId
            exact hy1.2
        · rw [if_neg hyd] at hye
          subst hye
          exact hy1
      · have hupd := map_devId_update s.usbDevs did (fun _ => d.refcnt - 1)
        simpa [hupd] using h2

/-- Each registry operation preserves the registry invariant. -/
theorem registryInv_applyDevOp (hook : Bool) (s : DeviceRegistry) (op : DevOp)
    (h : registryInv s) : registryInv (applyDevOp hook s op) := by
  cases op with
  | alloc sid => exact registryInv_alloc sid s h
  | ref did => exact registryInv_ref did s h
  | unref did => exact registryInv_unref hook did s h

/-- Every operation sequence from the empty registry yields an
invariant-satisfying registry. -/
theorem registryInv_applyDevOps (hook : Bool) (ops : List DevOp) :
    registryInv (applyDevOps hook ops) := by
  unfold applyDevOps
  have step : ∀ s, registryInv s → registryInv (ops.foldl (applyDevOp hook) s) := by
    induction ops with
    | nil =>
      intro s h
      exact h
    | cons op rest ih =>
      intro s h
      rw [List.foldl_cons]
      exact ih _ (registryInv_applyDevOp hook s op h)
  refine step _ ⟨?_, ?_⟩
  · intro d hd
    cases hd
  · simp

/-- C8: unref_device decrements the reference count; exactly on the 1-to-0
transition the device is delinked from the registry, the backend destroy
hook (when present) is invoked exactly once and the storage is freed; with a
higher count the device stays registered with the decremented count, and
consequently every device reachable through any alloc/ref/unref history has
refcount at least 1. -/
theorem unref_device_lifecycle (hook : Bool) :
    (∀ (s : DeviceRegistry) (d : Device),
      (s.usbDevs.map (fun x => x.devId)).Nodup → d ∈ s.usbDevs → d.refcnt = 1 →
      (∀ x ∈ (libusb_unref_device hook d.devId s).usbDevs, x.devId ≠ d.devId) ∧
      (libusb_unref_device hook d.devId s).destroyed =
        (if hook then s.destroyed ++ [d.devId] else s.destroyed) ∧
      (libusb_unref_device hook d.devId s).freed = s.freed ++ [d.devId]) ∧
    (∀ (s : DeviceRegistry) (d : Device),
      (s.usbDevs.map (fun x => x.devId)).Nodup → d ∈ s.usbDevs → 1 < d.refcnt →
      { d with refcnt := d.refcnt - 1 } ∈ (libusb_unref_device hook d.devId s).usbDevs ∧
      (libusb_unref_device hook d.devId s).destroyed = s.destroyed ∧
      (libusb_unref_device hook d.devId s).freed = s.freed) ∧
    (∀ ops : List DevOp, ∀ x ∈ (applyDevOps hook ops).usbDevs, 1 ≤ x.refcnt) :=
  ⟨unref_device_last hook, unref_device_decrement hook,
   fun ops x hx => ((registryInv_applyDevOps hook ops).1 x hx).1⟩

/-- C8 witness: the S1-style tail — a device with refcount 2 survives one
unref with count 1; with refcount 1 an unref destroys it exactly once and
frees it; and any operation history keeps registered refcounts at least
1. -/
theorem unref_device_lifecycle_witness :
    (∀ x ∈ (libusb_unref_device true 0 regOne).usbDevs, x.devId ≠ (0 : Nat)) ∧
    (libusb_unref_device true 0 regOne).destroyed = [0] ∧
    (libusb_unref_device true 0 regOne).freed = [0] ∧
    ({ devId := 0, sessionData := 7, refcnt := 1 } : Device) ∈
      (libusb_unref_device true 0 regTwo).usbDevs ∧
    ∀ x ∈ (applyDevOps true [DevOp.alloc 7, DevOp.ref 0, DevOp.unref 0]).usbDevs,
      1 ≤ x.refcnt :=
  ⟨((unref_device_lifecycle true).1 regOne ⟨0, 7, 1⟩ (by decide) (by decide) rfl).1,
   ((unref_device_lifecycle true).1 regOne ⟨0, 7, 1⟩ (by decide) (by decide) rfl).2.1,
   ((unref_device_lifecycle true).1 regOne ⟨0, 7, 1⟩ (by decide) (by decide) rfl).2.2,
   ((unref_device_lifecycle true).2.1 regTwo ⟨0, 7, 2⟩ (by decide) (by decide) (by norm_num)).1,
   (unref_device_lifecycle true).2.2 _⟩

/-- C6 (amended): an event-loop iteration first consults the next scheduler
deadline.  When that deadline has already expired, no select call is made at
all: the iteration runs the timeout sweep and returns 0.  Otherwise select
is invoked with the minimum of the caller's timeout and the remaining time
to the deadline (the caller's timeout alone when there is no deadline), and
when select returns 0 the sweep runs and the iteration returns 0 without
invoking the backend event handler. -/
theorem poll_io_select_timeout_behavior (now : Timeval) (flying : List UsbiTransfer)
    (pfds : List Pollfd) (tv : Timeval) (sel : SelectOracle) (backendRet : Int) :
    (libusb_get_next_timeout now flying = some ⟨0, 0⟩ →
      poll_io now flying pfds tv sel backendRet =
        ⟨none, true, (handle_timeouts now flying).flying,
         (handle_timeouts now flying).cancels, false, tv, 0⟩) ∧
    (∀ rem, libusb_get_next_timeout now flying = some rem → timerisset rem →
      (poll_io now flying pfds tv sel backendRet).selectCall.map SelectCall.timeout =
        some (if timevalLt rem tv then rem else tv)) ∧
    (libusb_get_next_timeout now flying = none →
      (poll_io now flying pfds tv sel backendRet).selectCall.map SelectCall.timeout =
        some tv) ∧
    (sel.ret = 0 → (poll_io now flying pfds tv sel backendRet).selectCall.isSome = true →
      (poll_io now flying pfds tv sel backendRet).sweepRan = true ∧
      (poll_io now flying pfds tv sel backendRet).backendHandledEvents = false ∧
      (poll_io now flying pfds tv sel backendRet).ret = 0 ∧
      (poll_io now flying pfds tv sel backendRet).flying = (handle_timeouts now flying).flying ∧
      (poll_io now flying pfds tv sel backendRet).cancels =
        (handle_timeouts now flying).cancels) := by
  refine ⟨fun hexp => ?_, fun rem hrem hset => ?_, fun hnone => ?_, fun hsel hsome => ?_⟩
  · unfold poll_io
    rw [hexp]
    have hz : ¬ timerisset (⟨0, 0⟩ : Timeval) := by decide
    simp [hz]
  · unfold poll_io
    rw [hrem]
    simp only [if_neg (not_not_intro hset)]
    by_cases hlt : timevalLt rem tv <;>
      by_cases h0 : sel.ret = 0 <;>
        by_cases he : sel.ret = -1 ∧ sel.eintr = true <;>
          by_cases hneg : sel.ret < 0 <;>
            by_cases hb : backendRet < 0 <;>
              simp [hlt, h0, he, hneg, hb]
  · unfold poll_io
    rw [hnone]
    by_cases h0 : sel.ret = 0 <;>
      by_cases he : sel.ret = -1 ∧ sel.eintr = true <;>
        by_cases hneg : sel.ret < 0 <;>
          by_cases hb : backendRet < 0 <;>
            simp [h0, he, hneg, hb]
  · unfold poll_io at hsome ⊢
    cases hnext : libusb_get_next_timeout now flying with
    | none =>
      dsimp only at hsome ⊢
      simp [hsel]
    | some rem =>
      by_cases hset : timerisset rem
      · by_cases hlt : timevalLt rem tv <;>
          simp [hset, hlt, hsel]
      · rw [hnext] at hsome
        simp [hset] at hsome

/-- C6 counterexample: with a single in-flight transfer whose deadline (5 s)
is already past (now 10 s) and a caller timeout of 2 s, poll_io never calls
select — it runs the sweep and returns — whereas the claim requires a select
call with a zero-clamped timeout. -/
theorem poll_io_expired_counterexample :
    (poll_io ⟨10, 0⟩ [flight5s] [] ⟨2, 0⟩ ⟨1, false, ⟨0, 0⟩⟩ 0).selectCall = none ∧
    (poll_io ⟨10, 0⟩ [flight5s] [] ⟨2, 0⟩ ⟨1, false, ⟨0, 0⟩⟩ 0).sweepRan = true := by
  decide

/-- C6 witness: with an already-expired 5 s deadline at now 10 s the
iteration makes no select call, sweeps and returns; with a 12 s deadline at
now 10 s and a 5 s caller timeout, select is called with the 2 s remainder;
and on a select timeout (0 return) the sweep runs and the iteration returns
0 without the backend. -/
theorem poll_io_select_timeout_behavior_witness :
    poll_io ⟨10, 0⟩ [flight5s] [] ⟨2, 0⟩ ⟨1, false, ⟨0, 0⟩⟩ 0 =
      ⟨none, true, (handle_timeouts ⟨10, 0⟩ [flight5s]).flying,
       (handle_timeouts ⟨10, 0⟩ [flight5s]).cancels, false, ⟨2, 0⟩, 0⟩ ∧
    (poll_io ⟨10, 0⟩ [flight12s] [] ⟨5, 0⟩ ⟨0, false, ⟨0, 0⟩⟩ 0).selectCall.map
        SelectCall.timeout =
      some (if timevalLt ⟨2, 0⟩ ⟨5, 0⟩ then (⟨2, 0⟩ : Timeval) else ⟨5, 0⟩) ∧
    (poll_io ⟨10, 0⟩ [flight12s] [] ⟨5, 0⟩ ⟨0, false, ⟨0, 0⟩⟩ 0).sweepRan = true ∧
    (poll_io ⟨10, 0⟩ [flight12s] [] ⟨5, 0⟩ ⟨0, false, ⟨0, 0⟩⟩ 0).backendHandledEvents = false ∧
    (poll_io ⟨10, 0⟩ [flight12s] [] ⟨5, 0⟩ ⟨0, false, ⟨0, 0⟩⟩ 0).ret = 0 :=
  ⟨(poll_io_select_timeout_behavior ⟨10, 0⟩ [flight5s] [] ⟨2, 0⟩ ⟨1, false, ⟨0, 0⟩⟩ 0).1
      (by decide),
   (poll_io_select_timeout_behavior ⟨10, 0⟩ [flight12s] [] ⟨5, 0⟩ ⟨0, false, ⟨0, 0⟩⟩ 0).2.1
      ⟨2, 0⟩ (by decide) (by decide),
   ((poll_io_select_timeout_behavior ⟨10, 0⟩ [flight12s] [] ⟨5, 0⟩ ⟨0, false, ⟨0, 0⟩⟩ 0).2.2.2
      rfl (by decide)).1,
   ((poll_io_select_timeout_behavior ⟨10, 0⟩ [flight12s] [] ⟨5, 0⟩ ⟨0, false, ⟨0, 0⟩⟩ 0).2.2.2
      rfl (by decide)).2.1,
   ((poll_io_select_timeout_behavior ⟨10, 0⟩ [flight12s] [] ⟨5, 0⟩ ⟨0, false, ⟨0, 0⟩⟩ 0).2.2.2
      rfl (by decide)).2.2.1⟩

end LibUSB
